import Mathlib

/-!
Shallow embedding of `kivy/input/postproc/calibration.py`
(`InputPostprocCalibration`): the configuration parser building
`self.devices`, the provider-key fallback `_get_provider_key`, and the
per-batch `process` loop. Python floats are modelled as rationals, Python
dicts as insertion-ordered association lists, the per-event metadata entry
`event.ud['calibration:frame']` as an optional field on the event, and the
`ValueError`s that can escape `__init__` as an `Except` error.
-/

namespace Calibration

/-- Numeric value of a list of decimal digit characters. -/
def natOfDigits (cs : List Char) : ℕ :=
  cs.foldl (fun n c => 10 * n + (c.toNat - 48)) 0

/-- Parse an unsigned decimal literal: `digits`, `digits.digits`, `.digits`
    or `digits.`. -/
def parsePos (cs : List Char) : Option ℚ :=
  let ip := cs.takeWhile Char.isDigit
  match cs.dropWhile Char.isDigit with
  | [] => if ip.isEmpty then none else some (natOfDigits ip)
  | '.' :: fp =>
    if fp.all Char.isDigit && !(ip.isEmpty && fp.isEmpty) then
      some ((natOfDigits ip : ℚ) + (natOfDigits fp : ℚ) / (10 ^ fp.length))
    else none
  | _ => none

/-- Python `str.strip()` on the character list: drop whitespace from both
    ends. -/
def trimChars (cs : List Char) : List Char :=
  ((cs.dropWhile Char.isWhitespace).reverse.dropWhile Char.isWhitespace).reverse

/-- Python `str.strip()`. -/
def trimStr (s : String) : String := (trimChars s.toList).asString

/-- Python `s.split(',')`: splitting an empty string gives `[""]`, adjacent
    commas give empty pieces. -/
def splitCommaAux : List Char → List Char → List String
  | [], acc => [acc.reverse.asString]
  | c :: rest, acc =>
    if c = ',' then acc.reverse.asString :: splitCommaAux rest []
    else splitCommaAux rest (c :: acc)

/-- Python `params_str.split(',')`. -/
def splitComma (s : String) : List String := splitCommaAux s.toList []

/-- Models Python `float(value)` on plain decimal literals: optional sign,
    surrounding whitespace tolerated; `none` models the `ValueError` raised
    on a malformed value such as `float('notanumber')`. -/
def parseFloat (s : String) : Option ℚ :=
  match trimChars s.toList with
  | '-' :: rest => (parsePos rest).map (fun q => -q)
  | '+' :: rest => parsePos rest
  | cs => parsePos cs

/-- Python dict membership `k in m` on an insertion-ordered assoc list. -/
def containsKey {α : Type} (m : List (String × α)) (k : String) : Bool :=
  m.any (fun kv => kv.1 = k)

/-- Python dict read `m[k]` (first, hence unique, binding of `k`). -/
def lookupKey {α : Type} : List (String × α) → String → Option α
  | [], _ => none
  | kv :: rest, k => if kv.1 = k then some kv.2 else lookupKey rest k

/-- Python dict write `m[k] = v`: overwrite in place when the key exists,
    otherwise append (insertion order preserved). -/
def dictInsert {α : Type} (m : List (String × α)) (k : String) (v : α) :
    List (String × α) :=
  if containsKey m k then m.map (fun kv => if kv.1 = k then (k, v) else kv)
  else m ++ [(k, v)]

/-- Python `param.split('=', 1)` character by character: split at the first `=`;
    `none` models the tuple-unpacking `ValueError` when there is no `=`. -/
def splitEqAux : List Char → Option (List Char × List Char)
  | [] => none
  | c :: rest =>
    if c = '=' then some ([], rest)
    else (splitEqAux rest).map (fun p => (c :: p.1, p.2))

/-- Python `key, value = param.split('=', 1)` on a token. -/
def splitEq (s : String) : Option (String × String) :=
  (splitEqAux s.toList).map (fun p => (p.1.asString, p.2.asString))

/-- The `ValueError`s that can escape `InputPostprocCalibration.__init__`:
    unpacking a token with no `=`, or `float()` on a malformed value. -/
inductive ParseErr where
  | noEquals (token : String)
  | badFloat (value : String)
  deriving DecidableEq

/-- The recognised field names, in the order of the tuple checked by
    `__init__`. -/
def knownKeys : List String := ["xoffset", "yoffset", "xratio", "yratio"]

/-- The defaults `default_params`: offsets 0, ratios 1. -/
def defaultParams : List (String × ℚ) :=
  [("xoffset", 0), ("yoffset", 0), ("xratio", 1), ("yratio", 1)]

/-- The token loop of `__init__` over the comma-split tokens of one entry.
    The second component collects the unknown keys reported through
    `Logger.error`; an error result also carries the keys reported before
    the exception was raised (they were already logged). Note the code does
    NOT skip an unknown key: after logging it still runs
    `params` `[key] = float(value)`. -/
def parseTokens :
    List String → List (String × ℚ) → List String →
    Except (ParseErr × List String) (List (String × ℚ) × List String)
  | [], params, log => .ok (params, log)
  | tok :: rest, params, log =>
    let t := trimStr tok
    if t = "" then parseTokens rest params log
    else
      match splitEq t with
      | none => .error (.noEquals t, log)
      | some (key, value) =>
        let log2 := if knownKeys.contains key then log else log ++ [key]
        match parseFloat value with
        | none => .error (.badFloat value, log2)
        | some q => parseTokens rest (dictInsert params key q) log2

/-- One configuration entry: parse its parameter string starting from a
    fresh copy of the defaults. -/
def parseEntry (paramsStr : String) :
    Except (ParseErr × List String) (List (String × ℚ) × List String) :=
  parseTokens (splitComma paramsStr) defaultParams []

/-- The `__init__` loop over `Config.items('postproc:calibration')`: build
    `self.devices`, storing each parsed entry under its key. An exception
    while parsing one entry propagates and aborts the whole construction:
    nothing is returned, later entries are never reached. -/
def buildTable :
    List (String × String) → List (String × List (String × ℚ)) → List String →
    Except ParseErr (List (String × List (String × ℚ)) × List String)
  | [], table, log => .ok (table, log)
  | (devKey, paramsStr) :: rest, table, log =>
    match parseEntry paramsStr with
    | .error e => .error e.1
    | .ok (params, log2) => buildTable rest (dictInsert table devKey params) (log ++ log2)

/-- The stage state: `self.devices`, `self.provider_map` (provider-type name
    to the event classes it can emit) and `self.frame`. -/
structure Stage where
  devices : List (String × List (String × ℚ))
  provider_map : List (String × List String)
  frame : ℕ
  deriving DecidableEq

/-- Constructor `__init__`: `self.frame = 0`, the provider map injected (its construction
    queries the external provider registry), `self.devices` built from the
    configuration entries; an empty configuration gives an empty table. -/
def mkStage (cfg : List (String × String)) (pm : List (String × List String)) :
    Except ParseErr Stage :=
  match buildTable cfg [] [] with
  | .error e => .error e
  | .ok (table, _) => .ok ⟨table, pm, 0⟩

/-- The slice of a motion event this stage reads and writes: `device`, the
    event classes it is an instance of (so `isinstance(event, ec)` is
    membership of `ec` in `kinds`), the normalized position `sx`/`sy`, and
    `ud['calibration:frame']` as an optional field (`none` when the key is
    absent from the metadata bag). -/
structure MotionEvent where
  device : String
  kinds : List String
  sx : ℚ
  sy : ℚ
  calibration_frame : Option ℕ
  deriving DecidableEq

/-- Method `_get_provider_key`: scan the provider map in its stable dict order and
    return the first parenthesized provider key such that the event is an
    instance of one of the provider's event classes and the key is in the
    table; falling off the loop returns `None`. -/
def getProviderKey (devices : List (String × List (String × ℚ))) :
    List (String × List String) → MotionEvent → Option String
  | [], _ => none
  | (inputType, evClasses) :: rest, ev =>
    let key := "(" ++ inputType ++ ")"
    if evClasses.any (fun ec => ev.kinds.contains ec && containsKey devices key) then
      some key
    else getProviderKey devices rest ev

/-- Key resolution in `process`: the explicit device id when it is a table
    key, else the provider fallback. -/
def resolveKey (devices : List (String × List (String × ℚ)))
    (pm : List (String × List String)) (ev : MotionEvent) : Option String :=
  if containsKey devices ev.device then some ev.device
  else getProviderKey devices pm ev

/-- Read `params[name]` for one of the four canonical fields (always present:
    every stored entry starts from the defaults). -/
def getParam (params : List (String × ℚ)) (name : String) : ℚ :=
  (lookupKey params name).getD 0

/-- The mutation block: `event.sx = event.sx * xratio + xoffset`,
    `event.sy = event.sy * yratio + yoffset`, and the frame-marker write. -/
def applyTransform (params : List (String × ℚ)) (frame : ℕ) (ev : MotionEvent) :
    MotionEvent :=
  { ev with
    sx := ev.sx * getParam params "xratio" + getParam params "xoffset"
    sy := ev.sy * getParam params "yratio" + getParam params "yoffset"
    calibration_frame := some frame }

/-- The body of the `process` loop for one `(etype, event)` pair: skip end
    events; resolve the key; `if not dev` (which also drops a resolved
    empty-string key, by Python falsiness) skips unresolved events; skip an
    event already marked with the current frame; otherwise transform and
    mark. The `none` branch of the table read is unreachable since resolved
    keys are always present in the table. -/
def processEvent (devices : List (String × List (String × ℚ)))
    (pm : List (String × List String)) (frame : ℕ) (etype : String)
    (ev : MotionEvent) : MotionEvent :=
  if etype = "end" then ev
  else
    match resolveKey devices pm ev with
    | none => ev
    | some dev =>
      if dev = "" then ev
      else if ev.calibration_frame = some frame then ev
      else
        match lookupKey devices dev with
        | some params => applyTransform params frame ev
        | none => ev

/-- One iteration of the batch loop acting on the event store: a batch holds
    `(etype, event id)` pairs and the store holds the event objects, so an
    event aliased twice in one batch shares its mutations. -/
def stepEvent (devices : List (String × List (String × ℚ)))
    (pm : List (String × List String)) (frame : ℕ)
    (store : List MotionEvent) (p : String × ℕ) : List MotionEvent :=
  match store.get? p.2 with
  | none => store
  | some ev => store.set p.2 (processEvent devices pm frame p.1 ev)

/-- Method `process(events)`: fast path returning the batch untouched when the
    table is empty, else bump `self.frame` once for the whole batch, run the
    loop mutating events in the store, and return the same batch container. -/
def process (st : Stage) (batch : List (String × ℕ)) (store : List MotionEvent) :
    List (String × ℕ) × List MotionEvent × Stage :=
  if st.devices.isEmpty then (batch, store, st)
  else
    let frame := st.frame + 1
    (batch, batch.foldl (stepEvent st.devices st.provider_map frame) store,
      { st with frame := frame })

/-- An entry restricted to the four canonical fields. -/
def restrictParams : List (String × ℚ) → List (String × ℚ)
  | [] => []
  | kv :: rest =>
    if knownKeys.contains kv.1 then kv :: restrictParams rest
    else restrictParams rest

/-- Modelled from the spec: the provider fallback described as a first-match
    scan — select the first provider type whose event-kind set contains the
    event's runtime kind AND whose parenthesized key is present in the table
    (a provider-level conjunction, where the code interleaves the table check
    inside its inner loop over event classes). -/
def specProviderKey (devices : List (String × List (String × ℚ))) :
    List (String × List String) → MotionEvent → Option String
  | [], _ => none
  | (inputType, evClasses) :: rest, ev =>
    let key := "(" ++ inputType ++ ")"
    if (evClasses.any fun ec => ev.kinds.contains ec) && containsKey devices key then
      some key
    else specProviderKey devices rest ev

/-- A concrete entry: xratio 1/2, xoffset 1/10, yratio 2, yoffset 0 —
    as stored by parsing `xratio=0.5,xoffset=0.1,yratio=2.0,yoffset=0.0`. -/
def paramsW : List (String × ℚ) :=
  [("xoffset", 1/10), ("yoffset", 0), ("xratio", 1/2), ("yratio", 2)]

/-- A one-entry table keyed by the explicit device id `dev1`. -/
def tblW : List (String × List (String × ℚ)) := [("dev1", paramsW)]

/-- An unmarked event from `dev1` at position (0.4, 0.3). -/
def evW : MotionEvent := ⟨"dev1", [], 2/5, 3/10, none⟩

/-- The same event already marked as calibrated in frame 1. -/
def evM : MotionEvent := ⟨"dev1", [], 2/5, 3/10, some 1⟩

/-- A provider map with one provider type emitting one event class. -/
def pmW : List (String × List String) := [("mtdev", ["MTDMotionEvent"])]

/-- A table holding only the parenthesized provider key. -/
def tblP : List (String × List (String × ℚ)) := [("(mtdev)", paramsW)]

/-- An event whose device id is absent from the table but whose class is
    emitted by `mtdev`. -/
def evP : MotionEvent := ⟨"/dev/input/event5", ["MTDMotionEvent"], 2/5, 3/10, none⟩

/-- An event resolving to nothing. -/
def evN : MotionEvent := ⟨"nodev", [], 2/5, 3/10, none⟩

/-- A stage with the one-entry table. -/
def stW : Stage := ⟨tblW, [], 0⟩

/-- A stage with an empty table (no calibration configured) and a nonzero
    frame counter. -/
def stE : Stage := ⟨[], [], 7⟩

/- ------------------------------------------------------------------ -/
/- Shared helper lemmas.                                              -/
/- ------------------------------------------------------------------ -/

theorem any_and_const {α : Type} (l : List α) (f : α → Bool) (c : Bool) :
    (l.any fun x => f x && c) = (l.any f && c) := by
  cases c <;> simp

theorem getProviderKey_eq_spec (devices : List (String × List (String × ℚ)))
    (pm : List (String × List String)) (ev : MotionEvent) :
    getProviderKey devices pm ev = specProviderKey devices pm ev := by
  induction pm with
  | nil => rfl
  | cons hd tl ih =>
    obtain ⟨inputType, evClasses⟩ := hd
    simp only [getProviderKey, specProviderKey, any_and_const, ih]

theorem stepEvent_length (devices : List (String × List (String × ℚ)))
    (pm : List (String × List String)) (frame : ℕ)
    (store : List MotionEvent) (p : String × ℕ) :
    (stepEvent devices pm frame store p).length = store.length := by
  unfold stepEvent
  cases h : store.get? p.2 <;> simp

theorem foldl_stepEvent_length (devices : List (String × List (String × ℚ)))
    (pm : List (String × List String)) (frame : ℕ)
    (batch : List (String × ℕ)) (store : List MotionEvent) :
    (batch.foldl (stepEvent devices pm frame) store).length = store.length := by
  induction batch generalizing store with
  | nil => rfl
  | cons hd tl ih => rw [List.foldl_cons, ih, stepEvent_length]

theorem processEvent_of_marked (devices : List (String × List (String × ℚ)))
    (pm : List (String × List String)) (frame : ℕ) (etype : String)
    (ev : MotionEvent) (h : ev.calibration_frame = some frame) :
    processEvent devices pm frame etype ev = ev := by
  unfold processEvent
  by_cases hend : etype = "end"
  · simp [hend]
  · simp only [hend, if_false]
    cases hres : resolveKey devices pm ev with
    | none => rfl
    | some dev =>
      by_cases hne : dev = ""
      · simp [hne]
      · simp [hne, h]

theorem getProviderKey_kinds (devices : List (String × List (String × ℚ)))
    (pm : List (String × List String)) (ev ew : MotionEvent)
    (h : ev.kinds = ew.kinds) :
    getProviderKey devices pm ev = getProviderKey devices pm ew := by
  induction pm with
  | nil => rfl
  | cons hd tl ih =>
    obtain ⟨inputType, evClasses⟩ := hd
    simp only [getProviderKey, h, ih]

theorem resolveKey_applyTransform (devices : List (String × List (String × ℚ)))
    (pm : List (String × List String)) (params : List (String × ℚ))
    (frame : ℕ) (ev : MotionEvent) :
    resolveKey devices pm (applyTransform params frame ev)
      = resolveKey devices pm ev := by
  unfold resolveKey
  have hdev : (applyTransform params frame ev).device = ev.device := rfl
  rw [hdev, getProviderKey_kinds devices pm (applyTransform params frame ev) ev rfl]

theorem containsKey_map_restrict (devices : List (String × List (String × ℚ)))
    (k : String) :
    containsKey (devices.map fun d => (d.1, restrictParams d.2)) k
      = containsKey devices k := by
  unfold containsKey
  rw [List.any_map]
  rfl

theorem getProviderKey_map_restrict (devices : List (String × List (String × ℚ)))
    (pm : List (String × List String)) (ev : MotionEvent) :
    getProviderKey (devices.map fun d => (d.1, restrictParams d.2)) pm ev
      = getProviderKey devices pm ev := by
  induction pm with
  | nil => rfl
  | cons hd tl ih =>
    obtain ⟨inputType, evClasses⟩ := hd
    simp only [getProviderKey, containsKey_map_restrict, ih]

theorem resolveKey_map_restrict (devices : List (String × List (String × ℚ)))
    (pm : List (String × List String)) (ev : MotionEvent) :
    resolveKey (devices.map fun d => (d.1, restrictParams d.2)) pm ev
      = resolveKey devices pm ev := by
  unfold resolveKey
  rw [containsKey_map_restrict, getProviderKey_map_restrict]

theorem lookupKey_map_restrict (devices : List (String × List (String × ℚ)))
    (k : String) :
    lookupKey (devices.map fun d => (d.1, restrictParams d.2)) k
      = (lookupKey devices k).map restrictParams := by
  induction devices with
  | nil => rfl
  | cons hd tl ih =>
    by_cases h : hd.1 = k
    · simp [lookupKey, h]
    · simp [lookupKey, h, ih]

theorem getParam_restrict (params : List (String × ℚ)) (name : String)
    (h : knownKeys.contains name = true) :
    getParam (restrictParams params) name = getParam params name := by
  induction params with
  | nil => rfl
  | cons kv tl ih =>
    by_cases hk : kv.1 = name
    · have hm : name ∈ knownKeys := by simpa using h
      simp [restrictParams, getParam, lookupKey, hk, hm]
    · by_cases hc : knownKeys.contains kv.1 = true
      · simp only [restrictParams, hc, if_true, getParam, lookupKey, hk, if_false]
        exact ih
      · simp only [Bool.not_eq_true] at hc
        simp only [restrictParams, hc, if_false, getParam, lookupKey, hk]
        exact ih

theorem applyTransform_restrict (params : List (String × ℚ)) (frame : ℕ)
    (ev : MotionEvent) :
    applyTransform (restrictParams params) frame ev
      = applyTransform params frame ev := by
  unfold applyTransform
  rw [getParam_restrict params "xratio" (by decide),
    getParam_restrict params "xoffset" (by decide),
    getParam_restrict params "yratio" (by decide),
    getParam_restrict params "yoffset" (by decide)]

theorem buildTable_error_of_entry (pre : List (String × String)) (k s : String)
    (post : List (String × String)) (e : ParseErr) (lg : List String)
    (hpre : ∀ p ∈ pre, ∃ r, parseEntry p.2 = .ok r)
    (hs : parseEntry s = .error (e, lg)) :
    ∀ table log, buildTable (pre ++ (k, s) :: post) table log = .error e := by
  induction pre with
  | nil =>
    intro table log
    simp only [List.nil_append, buildTable, hs]
  | cons hd tl ih =>
    intro table log
    obtain ⟨r, hr⟩ := hpre hd (List.mem_cons_self hd tl)
    obtain ⟨devKey, paramsStr⟩ := hd
    simp only [List.cons_append, buildTable, hr]
    exact ih (fun p hp => hpre p (List.mem_cons_of_mem _ hp)) _ _

/- ------------------------------------------------------------------ -/
/- Claims.                                                            -/
/- ------------------------------------------------------------------ -/

/-- C1: for a non-terminal event whose calibration key resolves to a table
entry and that passes the frame-dedup check, `process` mutates the
normalized position in place to `sx * xratio + xoffset` and
`sy * yratio + yoffset`. -/
theorem processEvent_affine (devices : List (String × List (String × ℚ)))
    (pm : List (String × List String)) (frame : ℕ) (etype : String)
    (ev : MotionEvent) (dev : String) (params : List (String × ℚ))
    (hend : etype ≠ "end")
    (hres : resolveKey devices pm ev = some dev)
    (hne : dev ≠ "")
    (hlk : lookupKey devices dev = some params)
    (hfr : ev.calibration_frame ≠ some frame) :
    (processEvent devices pm frame etype ev).sx
        = ev.sx * getParam params "xratio" + getParam params "xoffset"
      ∧ (processEvent devices pm frame etype ev).sy
        = ev.sy * getParam params "yratio" + getParam params "yoffset" := by
  unfold processEvent
  simp [hend, hres, hne, hfr, hlk, applyTransform]

/-- C1 witness: with the entry `xratio=0.5, xoffset=0.1, yratio=2.0,
yoffset=0.0` under the event's explicit device id and input (0.4, 0.3),
the output position is (0.3, 0.6). -/
theorem processEvent_affine_witness :
    (processEvent tblW [] 1 "begin" evW).sx = 3/10
      ∧ (processEvent tblW [] 1 "begin" evW).sy = 3/5 := by
  have h := processEvent_affine tblW [] 1 "begin" evW "dev1" paramsW
    (by decide) (by with_unfolding_all rfl) (by decide)
    (by with_unfolding_all rfl) (by decide)
  constructor
  · rw [h.1]; with_unfolding_all rfl
  · rw [h.2]; with_unfolding_all rfl

/-- C2: within one `process` invocation the transform is applied at most
once to any event object: an unmarked event is mutated and marked with the
current frame; an event marked with the current frame is skipped; an event
marked with an earlier frame is mutated again and re-marked; processing an
already-processed event again in the same frame is a no-op. -/
theorem processEvent_frame_dedup (devices : List (String × List (String × ℚ)))
    (pm : List (String × List String)) (frame : ℕ) (etype : String)
    (ev : MotionEvent) (dev : String) (params : List (String × ℚ))
    (hend : etype ≠ "end")
    (hres : resolveKey devices pm ev = some dev)
    (hne : dev ≠ "")
    (hlk : lookupKey devices dev = some params) :
    (ev.calibration_frame = none →
        processEvent devices pm frame etype ev = applyTransform params frame ev)
      ∧ (ev.calibration_frame = some frame →
        processEvent devices pm frame etype ev = ev)
      ∧ (∀ f : ℕ, ev.calibration_frame = some f → f ≠ frame →
        processEvent devices pm frame etype ev = applyTransform params frame ev)
      ∧ processEvent devices pm frame etype
          (processEvent devices pm frame etype ev)
        = processEvent devices pm frame etype ev := by
  have happly : processEvent devices pm frame etype ev
      = applyTransform params frame ev
      ∨ processEvent devices pm frame etype ev = ev := by
    by_cases hfr : ev.calibration_frame = some frame
    · exact Or.inr (processEvent_of_marked devices pm frame etype ev hfr)
    · left
      unfold processEvent
      simp only [hend, if_false, hres, hne, hfr, hlk]
  refine ⟨?_, ?_, ?_, ?_⟩
  · intro hnone
    have hfr : ev.calibration_frame ≠ some frame := by rw [hnone]; intro hc; cases hc
    unfold processEvent
    simp only [hend, if_false, hres, hne, hfr, hlk]
  · intro hsome
    exact processEvent_of_marked devices pm frame etype ev hsome
  · intro f hf hfne
    have hfr : ev.calibration_frame ≠ some frame := by
      rw [hf]
      intro hc
      exact hfne (Option.some.inj hc)
    unfold processEvent
    simp only [hend, if_false, hres, hne, hfr, hlk]
  · rcases happly with h | h
    · rw [h]
      exact processEvent_of_marked devices pm frame etype _ rfl
    · rw [h]
      exact h

/-- C2 witness: with an entry under `dev1`, a fresh event is transformed,
an event marked with the current frame is left alone, and an event marked
in frame 1 is transformed again by a frame-2 call. -/
theorem processEvent_frame_dedup_witness :
    processEvent tblW [] 1 "update" evM = evM
      ∧ processEvent tblW [] 2 "update" evM = applyTransform paramsW 2 evM
      ∧ processEvent tblW [] 1 "update" evW = applyTransform paramsW 1 evW := by
  have h1 := processEvent_frame_dedup tblW [] 1 "update" evM "dev1" paramsW
    (by decide) (by with_unfolding_all rfl) (by decide) (by with_unfolding_all rfl)
  have h2 := processEvent_frame_dedup tblW [] 2 "update" evM "dev1" paramsW
    (by decide) (by with_unfolding_all rfl) (by decide) (by with_unfolding_all rfl)
  have h3 := processEvent_frame_dedup tblW [] 1 "update" evW "dev1" paramsW
    (by decide) (by with_unfolding_all rfl) (by decide) (by with_unfolding_all rfl)
  exact ⟨h1.2.1 rfl, h2.2.2.1 1 rfl (by decide), h3.1 rfl⟩

/-- C3: the calibration key resolves to the explicit device id when that is
a table key, otherwise to the first provider type (in stable scan order)
whose event-kind set matches the event and whose parenthesized key is in
the table; when resolution fails the event passes through unmodified. -/
theorem resolveKey_spec (devices : List (String × List (String × ℚ)))
    (pm : List (String × List String)) (frame : ℕ) (etype : String)
    (ev : MotionEvent) :
    (containsKey devices ev.device = true →
        resolveKey devices pm ev = some ev.device)
      ∧ (containsKey devices ev.device = false →
        resolveKey devices pm ev = specProviderKey devices pm ev)
      ∧ (resolveKey devices pm ev = none → etype ≠ "end" →
        processEvent devices pm frame etype ev = ev) := by
  refine ⟨?_, ?_, ?_⟩
  · intro h
    unfold resolveKey
    rw [h]
    rfl
  · intro h
    unfold resolveKey
    rw [h]
    simp only [Bool.false_eq_true, if_false]
    exact getProviderKey_eq_spec devices pm ev
  · intro hres hend
    unfold processEvent
    simp only [hend, if_false, hres]

/-- C3 witness: an event whose device id is not in the table resolves via
the parenthesized provider key `(mtdev)`; an event matching nothing is
passed through unmodified. -/
theorem resolveKey_spec_witness :
    resolveKey tblP pmW evP = specProviderKey tblP pmW evP
      ∧ resolveKey tblP pmW evP = some "(mtdev)"
      ∧ processEvent tblP pmW 1 "begin" evN = evN := by
  have h1 := resolveKey_spec tblP pmW 1 "begin" evP
  have h2 := resolveKey_spec tblP pmW 1 "begin" evN
  refine ⟨h1.2.1 (by with_unfolding_all rfl), by with_unfolding_all rfl,
    h2.2.2 (by with_unfolding_all rfl) (by decide)⟩

/-- C4: with an empty table `process` returns the batch, the store and the
stage unchanged (no frame increment); with a non-empty table the frame
counter is incremented exactly once per call; a freshly constructed stage
starts at frame 0. -/
theorem process_empty_table (st : Stage) (batch : List (String × ℕ))
    (store : List MotionEvent) (cfg : List (String × String))
    (pm : List (String × List String)) (st0 : Stage) :
    (st.devices = [] → process st batch store = (batch, store, st))
      ∧ (st.devices ≠ [] →
        (process st batch store).2.2.frame = st.frame + 1)
      ∧ (mkStage cfg pm = .ok st0 → st0.frame = 0) := by
  refine ⟨?_, ?_, ?_⟩
  · intro h
    unfold process
    rw [h]
    rfl
  · intro h
    have hne : st.devices.isEmpty = false := by
      cases hd : st.devices with
      | nil => exact absurd hd h
      | cons a l => rfl
    unfold process
    simp only [hne, Bool.false_eq_true, if_false]
  · intro h
    unfold mkStage at h
    cases hb : buildTable cfg [] [] with
    | error e => rw [hb] at h; cases h
    | ok r =>
      rw [hb] at h
      cases h
      rfl

/-- C4 witness: a stage with no configuration is an identity on a concrete
batch and does not touch its frame counter, while a configured stage bumps
the counter to 1. -/
theorem process_empty_table_witness :
    process stE [("begin", 0)] [evW] = ([("begin", 0)], [evW], stE)
      ∧ (process stW [("begin", 0)] [evW]).2.2.frame = 1
      ∧ (⟨tblW, [], 0⟩ : Stage).frame = 0 := by
  have h1 := process_empty_table stE [("begin", 0)] [evW]
    [("dev1", "xratio=0.5,xoffset=0.1,yratio=2.0,yoffset=0.0")] [] ⟨tblW, [], 0⟩
  have h2 := process_empty_table stW [("begin", 0)] [evW]
    [("dev1", "xratio=0.5,xoffset=0.1,yratio=2.0,yoffset=0.0")] [] ⟨tblW, [], 0⟩
  exact ⟨h1.1 rfl, h2.2.1 (by decide), h2.2.2 (by with_unfolding_all rfl)⟩

/-- C5 counterexample: a non-numeric value for a known field does not merely
end that entry while construction continues — `float('notanumber')` raises,
nothing catches it, and the whole table construction aborts: the result is
the exception, and `dev2` is never processed. -/
theorem badFloat_aborts_table_cex :
    buildTable [("dev1", "xoffset=0.1,xratio=notanumber,yratio=2.0"),
        ("dev2", "xratio=0.5")] [] []
      = .error (.badFloat "notanumber") := by
  with_unfolding_all rfl

/-- C5 amended: a non-numeric value for a known field raises an uncaught
exception that aborts construction of the entire table: the offending entry
is discarded (its fields parsed before the bad token along with it) and no
other entry — earlier or later — survives. -/
theorem badFloat_aborts_table (pre : List (String × String)) (k s : String)
    (post : List (String × String)) (v : String) (lg : List String)
    (hpre : ∀ p ∈ pre, ∃ r, parseEntry p.2 = .ok r)
    (hs : parseEntry s = .error (.badFloat v, lg)) :
    ∀ table log, buildTable (pre ++ (k, s) :: post) table log
      = .error (.badFloat v) :=
  buildTable_error_of_entry pre k s post (.badFloat v) lg hpre hs

/-- C5 amended witness: with a well-formed entry before and after it, the
entry `xoffset=0.1,xratio=notanumber,yratio=2.0` aborts the whole build. -/
theorem badFloat_aborts_table_witness :
    buildTable ([("dev0", "yratio=2.0")]
        ++ ("devX", "xoffset=0.1,xratio=notanumber,yratio=2.0")
        :: [("dev2", "xratio=0.5")]) [] []
      = .error (.badFloat "notanumber") := by
  have h := badFloat_aborts_table [("dev0", "yratio=2.0")] "devX"
    "xoffset=0.1,xratio=notanumber,yratio=2.0" [("dev2", "xratio=0.5")]
    "notanumber" []
    (by
      intro p hp
      rw [List.mem_singleton] at hp
      subst hp
      exact ⟨([("xoffset", 0), ("yoffset", 0), ("xratio", 1), ("yratio", 2)], []),
        by with_unfolding_all rfl⟩)
    (by with_unfolding_all rfl)
  exact h [] []

/-- C6 counterexample: the unknown field token `foo=bar` is not skipped:
after reporting the key, the code still parses `bar` as a float, which
raises and aborts the whole construction instead of continuing. -/
theorem unknownKey_not_skipped_cex :
    parseEntry "xratio=0.5,foo=bar" = .error (.badFloat "bar", ["foo"])
      ∧ buildTable [("dev1", "xratio=0.5,foo=bar"), ("dev2", "yratio=2.0")] [] []
        = .error (.badFloat "bar") := by
  constructor <;> with_unfolding_all rfl

/-- C6 amended: a token with an unknown field name is reported as an error
but NOT skipped: its value is still parsed as a float and stored under the
unknown name with the other fields untouched, and entry construction
continues — but when the value is not a float the exception aborts the
construction. -/
theorem unknownKey_parsed_not_skipped (ts : List String) (tok key value : String)
    (params : List (String × ℚ)) (log : List String)
    (htrim : trimStr tok = tok) (hne : tok ≠ "")
    (hsplit : splitEq tok = some (key, value))
    (hk : knownKeys.contains key = false) :
    (parseFloat value = none →
        parseTokens (tok :: ts) params log = .error (.badFloat value, log ++ [key]))
      ∧ (∀ q : ℚ, parseFloat value = some q →
        parseTokens (tok :: ts) params log
          = parseTokens ts (dictInsert params key q) (log ++ [key])) := by
  have hkm : key ∉ knownKeys := by simpa using hk
  constructor
  · intro hv
    simp [parseTokens, htrim, hne, hsplit, hk, hkm, hv]
  · intro q hv
    simp [parseTokens, htrim, hne, hsplit, hk, hkm, hv]

/-- C6 amended witness: `foo=bar` reports `foo` and aborts; `foo=2.0`
reports `foo`, stores 2 under `foo` and continues. -/
theorem unknownKey_parsed_not_skipped_witness :
    parseTokens ["foo=bar"] defaultParams [] = .error (.badFloat "bar", ["foo"])
      ∧ parseTokens ["foo=2.0"] defaultParams []
        = parseTokens [] (dictInsert defaultParams "foo" 2) ["foo"] := by
  have h1 := unknownKey_parsed_not_skipped [] "foo=bar" "foo" "bar"
    defaultParams [] (by rfl) (by decide) (by rfl) (by decide)
  have h2 := unknownKey_parsed_not_skipped [] "foo=2.0" "foo" "2.0"
    defaultParams [] (by rfl) (by decide) (by rfl) (by decide)
  exact ⟨h1.1 (by rfl), h2.2 2 (by with_unfolding_all rfl)⟩

/-- C7: a terminal (`end`) event is skipped entirely — no key lookup, no
coordinate mutation, no marker read or write — whatever the table holds. -/
theorem processEvent_end_skip (devices : List (String × List (String × ℚ)))
    (pm : List (String × List String)) (frame : ℕ) (ev : MotionEvent) :
    processEvent devices pm frame "end" ev = ev := by
  unfold processEvent
  simp

/-- C8: `process` returns the same batch container with the same pairs in
the same order for any input (the empty batch included), and the event
store keeps its cardinality — events are only mutated in place, never
added, removed or reordered. -/
theorem process_preserves_batch (st : Stage) (batch : List (String × ℕ))
    (store : List MotionEvent) :
    (process st batch store).1 = batch
      ∧ (process st batch store).2.1.length = store.length := by
  unfold process
  cases h : st.devices.isEmpty
  · simp [foldl_stepEvent_length]
  · simp

/-- C9: a non-empty token with no `=` character raises a tuple-unpacking
error when split, aborting construction of the entire table — entries both
before and after the offending one are lost. -/
theorem noEquals_aborts_table :
    parseEntry "xratio" = .error (.noEquals "xratio", [])
      ∧ buildTable [("dev1", "xratio=0.5"), ("dev2", "xratio"),
          ("dev3", "yratio=2.0")] [] []
        = .error (.noEquals "xratio") := by
  constructor <;> with_unfolding_all rfl

/-- C10: a token with an unknown field name but a parseable float value is
stored into the entry under that unknown name, yet the transform reads only
the four canonical fields — processing with any table equals processing
with that table restricted to the canonical fields. -/
theorem unknown_field_inert :
    parseEntry "foo=2.0"
        = .ok ([("xoffset", 0), ("yoffset", 0), ("xratio", 1), ("yratio", 1),
            ("foo", 2)], ["foo"])
      ∧ ∀ (devices : List (String × List (String × ℚ)))
          (pm : List (String × List String)) (frame : ℕ) (etype : String)
          (ev : MotionEvent),
          processEvent (devices.map fun d => (d.1, restrictParams d.2))
              pm frame etype ev
            = processEvent devices pm frame etype ev := by
  constructor
  · with_unfolding_all rfl
  · intro devices pm frame etype ev
    unfold processEvent
    rw [resolveKey_map_restrict]
    by_cases hend : etype = "end"
    · simp [hend]
    · simp only [hend, if_false]
      cases hres : resolveKey devices pm ev with
      | none => rfl
      | some dev =>
        by_cases hne : dev = ""
        · simp [hne]
        · simp only [hne, if_false]
          by_cases hfr : ev.calibration_frame = some frame
          · simp [hfr]
          · simp only [hfr, if_false]
            rw [lookupKey_map_restrict]
            cases hlk : lookupKey devices dev with
            | none => rfl
            | some params => simp [applyTransform_restrict]

end Calibration
